import Mathlib

/-!
Shallow embedding of the attendance date-resolution, grid, save and payment
logic of the private_class_system repository, together with theorems
settling the frozen claims about it.

Conventions of the embedding:
- A JavaScript `Date` restricted to a calendar day (the code only ever uses
  the `YYYY-MM-DD` projection via `toISOString().slice(0, 10)`) is modelled
  as a `CalDate` record of year / month / day numbers; comparison of ISO
  date strings is lexicographic on fixed-width fields, which coincides with
  the lexicographic order on the (year, month, day) triple.
- Remote queries are modelled by passing their outcome in as a value
  (`Except` for fallible calls, `Option` for nullable results); component
  state updates become explicit returned values.
- A JS `Map` and a JS object used as a dictionary are both modelled as an
  association list with overwrite-on-set semantics (`mapSet` / `mapGet`).
-/

namespace PrivateClassSystem

/-- Calendar date (the day projection of a JS `Date`), fields as numbers. -/
structure CalDate where
  year : Nat
  month : Nat
  day : Nat
  deriving DecidableEq, Repr

/-- Embed a `CalDate` into a lexicographically ordered triple; string
comparison of well-formed ISO dates agrees with this order. -/
def CalDate.toTriple (d : CalDate) : Lex (Nat × Lex (Nat × Nat)) :=
  toLex (d.year, toLex (d.month, d.day))

theorem CalDate.toTriple_injective : Function.Injective CalDate.toTriple := by
  intro a b h
  cases a; cases b
  simp only [CalDate.toTriple, toLex_inj, Prod.mk.injEq] at h
  simp_all

instance : LinearOrder CalDate :=
  LinearOrder.lift' CalDate.toTriple CalDate.toTriple_injective

theorem CalDate.lt_iff {a b : CalDate} :
    a < b ↔ a.year < b.year ∨
      (a.year = b.year ∧ (a.month < b.month ∨ (a.month = b.month ∧ a.day < b.day))) := by
  show a.toTriple < b.toTriple ↔ _
  simp [CalDate.toTriple, Prod.Lex.lt_iff]

theorem CalDate.le_iff {a b : CalDate} :
    a ≤ b ↔ a.year < b.year ∨
      (a.year = b.year ∧ (a.month < b.month ∨ (a.month = b.month ∧ a.day ≤ b.day))) := by
  show a.toTriple ≤ b.toTriple ↔ _
  simp [CalDate.toTriple, Prod.Lex.le_iff, Prod.Lex.lt_iff]

/-- Gregorian leap-year rule, as implemented by the JS `Date` rollover. -/
def isLeap (y : Nat) : Bool :=
  y % 4 == 0 && (y % 100 != 0 || y % 400 == 0)

/-- Number of days in month `m` (1-based) of year `y`: the value produced by
the `new Date(year, monthIndex + 1, 0)` end-of-month trick in
`parseMonthLabel` (src/unnamed/part_000, lines 870-880). -/
def daysInMonthOf (y m : Nat) : Nat :=
  if m = 2 then (if isLeap y then 29 else 28)
  else if m = 4 ∨ m = 6 ∨ m = 9 ∨ m = 11 then 30
  else 31

/-- Three-letter month name to 0-based month index, the result of
`new Date(mon + " 1, " + year).getMonth()` on the labels the app produces
(`toLocaleDateString` with month: short). -/
def monthIndexOf : String → Option Nat
  | "Jan" => some 0
  | "Feb" => some 1
  | "Mar" => some 2
  | "Apr" => some 3
  | "May" => some 4
  | "Jun" => some 5
  | "Jul" => some 6
  | "Aug" => some 7
  | "Sep" => some 8
  | "Oct" => some 9
  | "Nov" => some 10
  | "Dec" => some 11
  | _ => none

/-- Numeric parse of the year part (`Number(yearStr)` on a digit string). -/
def parseYear (cs : List Char) : Option Nat :=
  if cs ≠ [] ∧ cs.all (·.isDigit) then
    some (cs.foldl (fun n c => n * 10 + (c.toNat - 48)) 0)
  else none

/-- Month-label parser (src/unnamed/part_000, lines 870-880): splits the
label on spaces, looks the month name up, parses the year. Returns
`(year, month)` with month 1-based; `none` models the JS paths that yield an
invalid date (and hence a thrown `toISOString`). -/
def parseMonthLabel (label : String) : Option (Nat × Nat) :=
  match (label.data.splitOn ' ').map String.mk with
  | mon :: yearStr :: _ =>
    match monthIndexOf mon, parseYear yearStr.data with
    | some mi, some y => some (y, mi + 1)
    | _, _ => none
  | _ => none

/-- Modelled from the spec: `getDaysInMonth` is imported from
`src/lib/dateUtils`, which is not under src/. Per spec section 4.1 tier 3 it
enumerates every calendar day of the labelled month, 1st through last day
inclusive, with the last day derived with correct leap-year handling. -/
def getDaysInMonth (label : String) : List CalDate :=
  match parseMonthLabel label with
  | none => []
  | some (y, m) => (List.range (daysInMonthOf y m)).map (fun i => ⟨y, m, i + 1⟩)

/-- The `Array.from(new Set(xs)).sort()` idiom (src/unnamed/part_000, line
906): the sorted list of the distinct elements. -/
def sortedDedup (l : List CalDate) : List CalDate :=
  List.insertionSort (· ≤ ·) l.dedup

/-- A nullable JS array is non-empty (`xs && xs.length > 0`). -/
def optNonempty : Option (List CalDate) → Bool
  | some l => !l.isEmpty
  | none => false

/-- The `dbDatesIso` effect (src/unnamed/part_000, lines 883-916) as a
function of the remote and local outcomes: with non-empty custom dates the
state is reset to null; otherwise the lesson_schedules rows inside the
calendar bounds of the month are deduplicated and sorted, falling back to
the localStorage cache when the query errors or returns no rows in range.
`rows` are the lesson_date values for the class; the `.gte`/`.lte` window of
the query is applied here as a filter. -/
def computeDbDatesIso (custom : Option (List CalDate)) (queryErr : Bool)
    (rows : List CalDate) (localCache : Option (List CalDate)) (label : String) :
    Option (List CalDate) :=
  if optNonempty custom then none
  else
    match parseMonthLabel label with
    | none => none
    | some (y, m) =>
      if queryErr then localCache
      else
        let first : CalDate := ⟨y, m, 1⟩
        let last : CalDate := ⟨y, m, daysInMonthOf y m⟩
        let iso := sortedDedup (rows.filter (fun r => first ≤ r && r ≤ last))
        if iso.isEmpty then localCache else some iso

/-- The `days` memo (src/unnamed/part_000, lines 940-944): prefer non-empty
custom dates, else non-empty `dbDatesIso`, else the full month. -/
def attendanceDays (custom : Option (List CalDate)) (dbDatesIso : Option (List CalDate))
    (label : String) : List CalDate :=
  if optNonempty custom then custom.getD []
  else if optNonempty dbDatesIso then dbDatesIso.getD []
  else getDaysInMonth label

/-- The composed date resolver: the `days` memo applied to the state the
`dbDatesIso` effect computed from the same inputs. -/
def resolveDates (custom : Option (List CalDate)) (queryErr : Bool)
    (rows : List CalDate) (localCache : Option (List CalDate)) (label : String) :
    List CalDate :=
  attendanceDays custom (computeDbDatesIso custom queryErr rows localCache label) label

theorem sorted_lt_of_le_nodup {l : List CalDate}
    (hs : List.Sorted (· ≤ ·) l) (hn : l.Nodup) : List.Sorted (· < ·) l :=
  (hs.and hn).imp (fun h => lt_of_le_of_ne h.1 h.2)

theorem sortedDedup_sorted (l : List CalDate) :
    List.Sorted (· < ·) (sortedDedup l) := by
  have hs : List.Sorted (· ≤ ·) (sortedDedup l) := List.sorted_insertionSort _ _
  have hn : (sortedDedup l).Nodup :=
    (List.perm_insertionSort _ _).nodup_iff.mpr (List.nodup_dedup l)
  exact sorted_lt_of_le_nodup hs hn

theorem sortedDedup_eq_nil_iff {l : List CalDate} : sortedDedup l = [] ↔ l = [] := by
  unfold sortedDedup
  rw [← List.length_eq_zero, (List.perm_insertionSort _ _).length_eq,
    List.length_eq_zero, List.dedup_eq_nil]

theorem getDaysInMonth_sorted (label : String) :
    List.Sorted (· < ·) (getDaysInMonth label) := by
  unfold getDaysInMonth
  match parseMonthLabel label with
  | none => exact List.sorted_nil
  | some (y, m) =>
    rw [List.Sorted, List.pairwise_map]
    refine (List.pairwise_lt_range _).imp (fun h => CalDate.lt_iff.mpr ?_)
    exact Or.inr ⟨rfl, Or.inr ⟨rfl, Nat.add_lt_add_right h 1⟩⟩

/-- C1: for every month label, optional override date list and persisted
lesson-date rows, the resolver picks exactly one tier in strict priority
order: a supplied non-empty override list is used verbatim; otherwise the
sorted, duplicate-removed set of the persisted dates falling inside the
month is used when non-empty; otherwise every calendar day of the month is
used. -/
theorem resolver_tier_priority (custom : Option (List CalDate)) (rows : List CalDate)
    (label : String) (y m : Nat) (hparse : parseMonthLabel label = some (y, m)) :
    (optNonempty custom = true →
      resolveDates custom false rows none label = custom.getD []) ∧
    (optNonempty custom = false →
      (rows.filter (fun r => (⟨y, m, 1⟩ : CalDate) ≤ r && r ≤ ⟨y, m, daysInMonthOf y m⟩) ≠ [] →
        resolveDates custom false rows none label =
          sortedDedup (rows.filter
            (fun r => (⟨y, m, 1⟩ : CalDate) ≤ r && r ≤ ⟨y, m, daysInMonthOf y m⟩))) ∧
      (rows.filter (fun r => (⟨y, m, 1⟩ : CalDate) ≤ r && r ≤ ⟨y, m, daysInMonthOf y m⟩) = [] →
        resolveDates custom false rows none label =
          (List.range (daysInMonthOf y m)).map (fun i => ⟨y, m, i + 1⟩))) := by
  refine ⟨fun hc => ?_, fun hc => ⟨fun hne => ?_, fun heq => ?_⟩⟩
  · unfold resolveDates attendanceDays
    rw [hc]
    simp
  · have hiso : (sortedDedup (rows.filter
        (fun r => (⟨y, m, 1⟩ : CalDate) ≤ r && r ≤ ⟨y, m, daysInMonthOf y m⟩))).isEmpty = false := by
      simp [List.isEmpty_iff, sortedDedup_eq_nil_iff, hne]
    have hdb : computeDbDatesIso custom false rows none label =
        some (sortedDedup (rows.filter
          (fun r => (⟨y, m, 1⟩ : CalDate) ≤ r && r ≤ ⟨y, m, daysInMonthOf y m⟩))) := by
      unfold computeDbDatesIso
      rw [hc, hparse]
      simp [hiso]
    rw [resolveDates, hdb]
    unfold attendanceDays
    rw [hc]
    simp [optNonempty, hiso]
  · have hdb : computeDbDatesIso custom false rows none label = none := by
      unfold computeDbDatesIso
      rw [hc, hparse]
      simp [heq, sortedDedup]
    rw [resolveDates, hdb]
    unfold attendanceDays
    rw [hc]
    simp [optNonempty, getDaysInMonth, hparse]

/-- Witness for C1 at concrete inputs: tier 2 fires on persisted dates
`2025-08-12, 2025-08-05, 2025-08-05` with no override. -/
theorem resolver_tier_priority_witness :
    parseMonthLabel "Aug 2025" = some (2025, 8) ∧
    resolveDates none false [⟨2025, 8, 12⟩, ⟨2025, 8, 5⟩, ⟨2025, 8, 5⟩] none "Aug 2025" =
      sortedDedup (([⟨2025, 8, 12⟩, ⟨2025, 8, 5⟩, ⟨2025, 8, 5⟩] : List CalDate).filter
        (fun r => (⟨2025, 8, 1⟩ : CalDate) ≤ r && r ≤ ⟨2025, 8, daysInMonthOf 2025 8⟩)) :=
  ⟨by decide,
    ((resolver_tier_priority none [⟨2025, 8, 12⟩, ⟨2025, 8, 5⟩, ⟨2025, 8, 5⟩]
        "Aug 2025" 2025 8 (by decide)).2 rfl).1 (by decide)⟩

/-- C2 counterexample: a custom override list is used verbatim, so a
duplicated override date yields a resolved list that is neither strictly
increasing nor duplicate-free. -/
theorem resolved_dates_not_always_strictly_increasing :
    ¬ (List.Sorted (· < ·)
        (resolveDates (some [⟨2025, 8, 5⟩, ⟨2025, 8, 5⟩]) false [] none "Aug 2025") ∧
      (resolveDates (some [⟨2025, 8, 5⟩, ⟨2025, 8, 5⟩]) false [] none "Aug 2025").Nodup) := by
  decide

/-- C2 amended: when no non-empty custom override is supplied and no
localStorage fallback is present, the resolved date list (DB tier or
full-month tier) is strictly increasing and duplicate-free; custom override
lists and cached lists are passed through verbatim and carry no such
guarantee. -/
theorem resolved_dates_sorted_from_db_or_month (custom : Option (List CalDate))
    (rows : List CalDate) (label : String) (hc : optNonempty custom = false) :
    List.Sorted (· < ·) (resolveDates custom false rows none label) ∧
    (resolveDates custom false rows none label).Nodup := by
  have key : List.Sorted (· < ·) (resolveDates custom false rows none label) := by
    unfold resolveDates
    cases hp : parseMonthLabel label with
    | none =>
      have hdb : computeDbDatesIso custom false rows none label = none := by
        unfold computeDbDatesIso
        rw [hc, hp]
        simp
      rw [hdb]
      unfold attendanceDays
      rw [hc]
      simpa [optNonempty] using getDaysInMonth_sorted label
    | some ym =>
      obtain ⟨y, m⟩ := ym
      by_cases hne : rows.filter
          (fun r => (⟨y, m, 1⟩ : CalDate) ≤ r && r ≤ ⟨y, m, daysInMonthOf y m⟩) = []
      · have hdb : computeDbDatesIso custom false rows none label = none := by
          unfold computeDbDatesIso
          rw [hc, hp]
          simp [hne, sortedDedup]
        rw [hdb]
        unfold attendanceDays
        rw [hc]
        simpa [optNonempty] using getDaysInMonth_sorted label
      · have hiso : (sortedDedup (rows.filter
            (fun r => (⟨y, m, 1⟩ : CalDate) ≤ r && r ≤ ⟨y, m, daysInMonthOf y m⟩))).isEmpty
              = false := by
          simp [List.isEmpty_iff, sortedDedup_eq_nil_iff, hne]
        have hdb : computeDbDatesIso custom false rows none label =
            some (sortedDedup (rows.filter
              (fun r => (⟨y, m, 1⟩ : CalDate) ≤ r && r ≤ ⟨y, m, daysInMonthOf y m⟩))) := by
          unfold computeDbDatesIso
          rw [hc, hp]
          simp [hiso]
        rw [hdb]
        unfold attendanceDays
        rw [hc]
        simpa [optNonempty, hiso] using sortedDedup_sorted _
  exact ⟨key, key.imp ne_of_lt⟩

/-- Witness for the amended C2 at concrete inputs: persisted dates out of
order are resolved to a strictly increasing duplicate-free list. -/
theorem resolved_dates_sorted_from_db_or_month_witness :
    optNonempty none = false ∧
    (List.Sorted (· < ·)
      (resolveDates none false [⟨2024, 2, 10⟩, ⟨2024, 2, 3⟩] none "Feb 2024") ∧
    (resolveDates none false [⟨2024, 2, 10⟩, ⟨2024, 2, 3⟩] none "Feb 2024").Nodup) :=
  ⟨rfl, resolved_dates_sorted_from_db_or_month none [⟨2024, 2, 10⟩, ⟨2024, 2, 3⟩] "Feb 2024" rfl⟩

/-- C8: for every parsable month label the full-month fallback enumerates
exactly the calendar days of that month, first through last inclusive, with
the correct count per month, and February of a leap year has 29 days. -/
theorem fullMonth_fallback_correct (label : String) (y m : Nat)
    (hparse : parseMonthLabel label = some (y, m)) :
    getDaysInMonth label = (List.range (daysInMonthOf y m)).map (fun i => ⟨y, m, i + 1⟩) ∧
    (getDaysInMonth label).length = daysInMonthOf y m ∧
    (m = 2 → (getDaysInMonth label).length =
      if y % 4 = 0 ∧ (y % 100 ≠ 0 ∨ y % 400 = 0) then 29 else 28) ∧
    ((m = 4 ∨ m = 6 ∨ m = 9 ∨ m = 11) → (getDaysInMonth label).length = 30) ∧
    ((m = 1 ∨ m = 3 ∨ m = 5 ∨ m = 7 ∨ m = 8 ∨ m = 10 ∨ m = 12) →
      (getDaysInMonth label).length = 31) := by
  have h1 : getDaysInMonth label =
      (List.range (daysInMonthOf y m)).map (fun i => ⟨y, m, i + 1⟩) := by
    unfold getDaysInMonth
    rw [hparse]
  have h2 : (getDaysInMonth label).length = daysInMonthOf y m := by
    rw [h1]
    simp
  refine ⟨h1, h2, ?_, ?_, ?_⟩
  · rintro rfl
    rw [h2]
    show (if isLeap y then 29 else 28) = _
    refine if_congr ?_ rfl rfl
    simp [isLeap]
  · rintro (rfl | rfl | rfl | rfl) <;> rw [h2] <;> rfl
  · rintro (rfl | rfl | rfl | rfl | rfl | rfl | rfl) <;> rw [h2] <;> rfl

/-- Witness for C8: the leap month "Feb 2024" yields the 29 dates
2024-02-01 through 2024-02-29. -/
theorem fullMonth_fallback_correct_witness :
    parseMonthLabel "Feb 2024" = some (2024, 2) ∧
    (getDaysInMonth "Feb 2024").length = 29 ∧
    getDaysInMonth "Feb 2024" = (List.range 29).map (fun i => ⟨2024, 2, i + 1⟩) := by
  have h := fullMonth_fallback_correct "Feb 2024" 2024 2 (by decide)
  exact ⟨by decide, (h.2.2.1 rfl).trans (by decide), h.1.trans (by decide)⟩

/-! ### Attendance grid state

The component keys its `Map` by the string `studentId ++ "-" ++ isoDate`
and a record object by ISO date strings; both are modelled as association
lists with overwrite-on-set, lookup-first semantics. -/

/-- Lookup in an association list, the `Map.get` / property read. -/
def mapGet (g : List (String × Bool)) (k : String) : Option Bool :=
  match g with
  | [] => none
  | (k₀, v) :: rest => if k₀ = k then some v else mapGet rest k

/-- Overwrite-or-append write, the `Map.set` / property assignment. -/
def mapSet (g : List (String × Bool)) (k : String) (v : Bool) : List (String × Bool) :=
  match g with
  | [] => [(k, v)]
  | (k₀, v₀) :: rest => if k₀ = k then (k₀, v) :: rest else (k₀, v₀) :: mapSet rest k v

theorem mapGet_mapSet (g : List (String × Bool)) (k k₀ : String) (v : Bool) :
    mapGet (mapSet g k v) k₀ = if k₀ = k then some v else mapGet g k₀ := by
  induction g with
  | nil =>
    by_cases h : k₀ = k
    · subst h
      simp [mapSet, mapGet]
    · have h2 : ¬ k = k₀ := fun hh => h hh.symm
      simp [mapSet, mapGet, h, h2]
  | cons p rest ih =>
    obtain ⟨k₁, v₁⟩ := p
    by_cases h1 : k₁ = k
    · subst h1
      simp only [mapSet, if_pos rfl, mapGet]
      by_cases h2 : k₁ = k₀
      · subst h2
        simp
      · have h2s : ¬ k₀ = k₁ := fun hh => h2 hh.symm
        simp [h2, h2s]
    · simp only [mapSet, if_neg h1, mapGet, ih]
      by_cases h2 : k₁ = k₀
      · subst h2
        rw [if_pos rfl, if_neg h1, if_pos rfl]
      · simp only [if_neg h2]

/-- Keys of an association list. -/
def mapKeys (g : List (String × Bool)) : List String := g.map Prod.fst

theorem mapKeys_mapSet (g : List (String × Bool)) (k : String) (v : Bool) :
    mapKeys (mapSet g k v) = if k ∈ mapKeys g then mapKeys g else mapKeys g ++ [k] := by
  induction g with
  | nil => simp [mapSet, mapKeys]
  | cons p rest ih =>
    obtain ⟨k₁, v₁⟩ := p
    by_cases h1 : k₁ = k
    · subst h1
      have hmem : k₁ ∈ mapKeys ((k₁, v₁) :: rest) := by simp [mapKeys]
      rw [if_pos hmem]
      simp [mapSet, mapKeys]
    · have hset : mapSet ((k₁, v₁) :: rest) k v = (k₁, v₁) :: mapSet rest k v := by
        simp [mapSet, h1]

      have hcons : mapKeys ((k₁, v₁) :: mapSet rest k v) = k₁ :: mapKeys (mapSet rest k v) := rfl
      have hcons₂ : mapKeys ((k₁, v₁) :: rest) = k₁ :: mapKeys rest := rfl
      rw [hset, hcons, hcons₂, ih]
      by_cases hk : k ∈ mapKeys rest
      · rw [if_pos hk, if_pos (List.mem_cons_of_mem _ hk)]
      · have hnot : k ∉ k₁ :: mapKeys rest := by
          intro hmem
          rcases List.mem_cons.mp hmem with h | h
          · exact h1 h.symm
          · exact hk h
        rw [if_neg hk, if_neg hnot]
        rfl

/-- The grid key `studentId-isoDate` (src/unnamed/part_000, line 954). -/
def keyFor (studentId isoDate : String) : String := studentId ++ "-" ++ isoDate

/-- `toggleAttendance` (src/unnamed/part_000, lines 956-963): writes the
negation of the current value under the pair key; a missing value is
`undefined`, whose JS negation is `true`. -/
def toggleAttendance (g : List (String × Bool)) (studentId isoDate : String) :
    List (String × Bool) :=
  mapSet g (keyFor studentId isoDate) (!((mapGet g (keyFor studentId isoDate)).getD false))

/-- `getAttendanceStatus` (src/unnamed/part_000, lines 965-968): the stored
boolean, with `undefined || false` collapsing a missing key to `false`. -/
def getAttendanceStatus (g : List (String × Bool)) (studentId isoDate : String) : Bool :=
  (mapGet g (keyFor studentId isoDate)).getD false

/-- C6: double-toggling any (student, date) pair restores the value `get`
reports for it, and a single toggle of a pair whose key is absent makes
`get` report true. -/
theorem toggle_toggle_restores (g : List (String × Bool)) (studentId isoDate : String) :
    getAttendanceStatus (toggleAttendance (toggleAttendance g studentId isoDate)
        studentId isoDate) studentId isoDate = getAttendanceStatus g studentId isoDate ∧
    (mapGet g (keyFor studentId isoDate) = none →
      getAttendanceStatus (toggleAttendance g studentId isoDate) studentId isoDate = true) := by
  constructor
  · unfold getAttendanceStatus toggleAttendance
    rw [mapGet_mapSet, if_pos rfl, mapGet_mapSet, if_pos rfl]
    simp
  · intro habs
    unfold getAttendanceStatus toggleAttendance
    rw [mapGet_mapSet, if_pos rfl, habs]
    rfl

/-- Witness for C6 on the empty grid and a concrete pair. -/
theorem toggle_toggle_restores_witness :
    getAttendanceStatus (toggleAttendance (toggleAttendance [] "s1" "2025-08-05")
        "s1" "2025-08-05") "s1" "2025-08-05" = getAttendanceStatus [] "s1" "2025-08-05" ∧
    getAttendanceStatus (toggleAttendance [] "s1" "2025-08-05") "s1" "2025-08-05" = true :=
  ⟨(toggle_toggle_restores [] "s1" "2025-08-05").1,
    (toggle_toggle_restores [] "s1" "2025-08-05").2 rfl⟩

/-- C7: `get` on a pair whose key was never set reports false; the
operation is total (it returns a boolean for any input strings, with no
third value and no exception). -/
theorem get_untouched_is_false (g : List (String × Bool)) (studentId isoDate : String)
    (habs : mapGet g (keyFor studentId isoDate) = none) :
    getAttendanceStatus g studentId isoDate = false := by
  unfold getAttendanceStatus
  rw [habs]
  rfl

/-- Witness for C7 on the empty grid. -/
theorem get_untouched_is_false_witness :
    mapGet [] (keyFor "anyone" "not-even-a-date") = none ∧
    getAttendanceStatus [] "anyone" "not-even-a-date" = false :=
  ⟨rfl, get_untouched_is_false [] "anyone" "not-even-a-date" rfl⟩

/-! ### Students, membership filter and the save operation -/

/-- The Student shape of src/types/index.ts. -/
structure Student where
  student_id : String
  student_name : String
  parent_email : Option String := none
  payment_status : Option String := none
  last_payment_date : Option String := none
  invoice_amount : Option ℚ := none
  deriving DecidableEq, Repr

/-- A lesson_schedules row as selected by the membership queries. -/
structure ScheduleRow where
  student_id : String
  deriving DecidableEq, Repr

/-- The `enrolledIds` effect (src/unnamed/part_000, lines 919-937): on a
query error the state stays null; on success it is the set of student ids
appearing in the schedule rows of the class. -/
def computeEnrolledIds (result : Except String (List ScheduleRow)) : Option (List String) :=
  match result with
  | .error _ => none
  | .ok rows => some ((rows.map (fun r => r.student_id)).dedup)

/-- `studentsForThisClass` (src/unnamed/part_000, lines 949-952): filter the
passed-in students by membership when the enrolled set is known, otherwise
show them all. -/
def studentsForThisClass (enrolledIds : Option (List String)) (students : List Student) :
    List Student :=
  match enrolledIds with
  | some ids => students.filter (fun s => ids.contains s.student_id)
  | none => students

/-- C5: on a successful enrollment lookup the students shown and saved are
exactly the passed-in students having at least one lesson-schedule row in
the class (the intersection, possibly empty); on a failed lookup all
passed-in students are shown unfiltered (fail-open). -/
theorem membership_filter_fail_open (students : List Student) (rows : List ScheduleRow)
    (e : String) :
    studentsForThisClass (computeEnrolledIds (.ok rows)) students =
      students.filter (fun s => rows.any (fun r => r.student_id == s.student_id)) ∧
    studentsForThisClass (computeEnrolledIds (.error e)) students = students := by
  refine ⟨?_, rfl⟩
  unfold studentsForThisClass computeEnrolledIds
  apply List.filter_congr
  intro s _
  simp only [List.contains, List.elem_eq_mem, List.mem_dedup, List.mem_map]
  rw [Bool.eq_iff_iff]
  simp only [decide_eq_true_eq, List.any_eq_true, beq_iff_eq]

/-- Zero-padding to two digits, as in an ISO date. -/
def pad2 (n : Nat) : String := if n < 10 then "0" ++ toString n else toString n

/-- Zero-padding to four digits, as in an ISO year. -/
def pad4 (n : Nat) : String :=
  if n < 10 then "000" ++ toString n
  else if n < 100 then "00" ++ toString n
  else if n < 1000 then "0" ++ toString n
  else toString n

/-- The `toISOString().slice(0, 10)` projection of a date. -/
def CalDate.toIso (d : CalDate) : String :=
  pad4 d.year ++ "-" ++ pad2 d.month ++ "-" ++ pad2 d.day

/-- The selected class, as passed to the grid component. -/
structure ClassInfo where
  class_id : String
  class_name : String
  deriving DecidableEq, Repr

/-- AttendanceRecord of src/types/index.ts: student identity plus one
boolean property per ISO date, the dynamic keys modelled as an association
list written with JS property-assignment semantics. -/
structure AttendanceRecord where
  student_id : String
  student_name : String
  dateFields : List (String × Bool)
  deriving DecidableEq, Repr

/-- AttendanceData of src/types/index.ts (user_id omitted, as in the code). -/
structure AttendanceData where
  class_id : String
  class_name : String
  month : String
  lesson_dates : List String
  data : List AttendanceRecord
  deriving DecidableEq, Repr

/-- AttendanceResponse of src/types/index.ts. -/
structure AttendanceResponse where
  ok : Bool
  updated : Nat
  month : String
  deriving DecidableEq, Repr

/-- Observable outcome of one `saveAttendance` run: the payload sent over
the network (none when no call was made), the toast raised, the
localStorage write performed, and the attendance map afterwards (the
function never mutates it; it is carried through to state that). -/
structure SaveOutcome where
  networkCall : Option AttendanceData
  toast : String
  toastIsError : Bool
  localCacheWrite : Option (String × List String)
  grid : List (String × Bool)
  deriving DecidableEq, Repr

/-- One outgoing record (src/unnamed/part_000, lines 991-1001): for each
resolved day the record gets a boolean property under the ISO date key,
valued by `getAttendanceStatus`. -/
def buildRecord (grid : List (String × Bool)) (days : List CalDate) (s : Student) :
    AttendanceRecord :=
  { student_id := s.student_id
    student_name := s.student_name
    dateFields := days.foldl
      (fun fields d => mapSet fields d.toIso (getAttendanceStatus grid s.student_id d.toIso))
      [] }

/-- `saveAttendance` (src/unnamed/part_000, lines 970-1033): validation
guards, payload construction over the membership-filtered students and the
resolved days, the remote call, and the localStorage cache write that only
happens when the remote call succeeded. -/
def saveAttendance (selectedClass : ClassInfo) (selectedMonth : String)
    (grid : List (String × Bool)) (days : List CalDate)
    (enrolledIds : Option (List String)) (students : List Student)
    (saveResult : Except String AttendanceResponse) : SaveOutcome :=
  if selectedClass.class_id = "" then
    { networkCall := none, toast := "Create/select a class first", toastIsError := true,
      localCacheWrite := none, grid := grid }
  else if (studentsForThisClass enrolledIds students).length = 0 then
    { networkCall := none, toast := "No students", toastIsError := true,
      localCacheWrite := none, grid := grid }
  else
    let plannedIsoDates := days.map CalDate.toIso
    let records := (studentsForThisClass enrolledIds students).map (buildRecord grid days)
    let payload : AttendanceData :=
      { class_id := selectedClass.class_id, class_name := selectedClass.class_name,
        month := selectedMonth, lesson_dates := plannedIsoDates, data := records }
    match saveResult with
    | .ok _ =>
      { networkCall := some payload, toast := "Attendance saved", toastIsError := false,
        localCacheWrite :=
          some ("lesson_dates:" ++ selectedClass.class_id ++ ":" ++ selectedMonth,
            plannedIsoDates),
        grid := grid }
    | .error _ =>
      { networkCall := some payload, toast := "Save failed", toastIsError := true,
        localCacheWrite := none, grid := grid }

/-- C4: an empty class identifier or an empty filtered student list makes
the save fail fast with a user-facing validation toast, no network call and
an unchanged grid. -/
theorem save_validation_guards (selectedClass : ClassInfo) (selectedMonth : String)
    (grid : List (String × Bool)) (days : List CalDate)
    (enrolledIds : Option (List String)) (students : List Student)
    (saveResult : Except String AttendanceResponse)
    (h : selectedClass.class_id = "" ∨ studentsForThisClass enrolledIds students = []) :
    (saveAttendance selectedClass selectedMonth grid days enrolledIds students
        saveResult).networkCall = none ∧
    (saveAttendance selectedClass selectedMonth grid days enrolledIds students
        saveResult).toastIsError = true ∧
    (saveAttendance selectedClass selectedMonth grid days enrolledIds students
        saveResult).grid = grid := by
  rcases h with h | h
  · simp [saveAttendance, h]
  · by_cases hc : selectedClass.class_id = ""
    · simp [saveAttendance, hc]
    · simp [saveAttendance, hc, h]

/-- Witness for C4: saving with a class but zero students in view. -/
theorem save_validation_guards_witness :
    ((⟨"c1", "Class 1"⟩ : ClassInfo).class_id = "" ∨
      studentsForThisClass (some []) [{ student_id := "s1", student_name := "Ann" }] = []) ∧
    ((saveAttendance ⟨"c1", "Class 1"⟩ "Aug 2025" [] [⟨2025, 8, 5⟩] (some [])
        [{ student_id := "s1", student_name := "Ann" }] (.ok ⟨true, 0, "Aug 2025"⟩)).networkCall
          = none ∧
      (saveAttendance ⟨"c1", "Class 1"⟩ "Aug 2025" [] [⟨2025, 8, 5⟩] (some [])
        [{ student_id := "s1", student_name := "Ann" }] (.ok ⟨true, 0, "Aug 2025"⟩)).toastIsError
          = true ∧
      (saveAttendance ⟨"c1", "Class 1"⟩ "Aug 2025" [] [⟨2025, 8, 5⟩] (some [])
        [{ student_id := "s1", student_name := "Ann" }] (.ok ⟨true, 0, "Aug 2025"⟩)).grid = []) :=
  ⟨Or.inr rfl,
    save_validation_guards ⟨"c1", "Class 1"⟩ "Aug 2025" [] [⟨2025, 8, 5⟩] (some [])
      [{ student_id := "s1", student_name := "Ann" }] (.ok ⟨true, 0, "Aug 2025"⟩) (Or.inr rfl)⟩

theorem buildFields_mapGet (f : String → Bool) (isos : List String)
    (init : List (String × Bool)) (k : String) :
    mapGet (isos.foldl (fun fields i => mapSet fields i (f i)) init) k =
      if k ∈ isos then some (f k) else mapGet init k := by
  induction isos generalizing init with
  | nil => simp
  | cons i rest ih =>
    rw [List.foldl_cons, ih]
    by_cases hk : k ∈ rest
    · rw [if_pos hk, if_pos (List.mem_cons_of_mem _ hk)]
    · rw [if_neg hk, mapGet_mapSet]
      by_cases hik : k = i
      · subst hik
        rw [if_pos rfl, if_pos (List.mem_cons_self _ _)]
      · have : k ∉ i :: rest := by
          intro hmem
          rcases List.mem_cons.mp hmem with h | h
          · exact hik h
          · exact hk h
        rw [if_neg hik, if_neg this]

theorem buildFields_mem_keys (f : String → Bool) (isos : List String)
    (init : List (String × Bool)) (k : String) :
    k ∈ mapKeys (isos.foldl (fun fields i => mapSet fields i (f i)) init) ↔
      k ∈ isos ∨ k ∈ mapKeys init := by
  induction isos generalizing init with
  | nil => simp
  | cons i rest ih =>
    rw [List.foldl_cons, ih, mapKeys_mapSet]
    by_cases hm : i ∈ mapKeys init
    · rw [if_pos hm]
      constructor
      · rintro (h | h)
        · exact Or.inl (List.mem_cons_of_mem _ h)
        · exact Or.inr h
      · rintro (h | h)
        · rcases List.mem_cons.mp h with rfl | h
          · exact Or.inr hm
          · exact Or.inl h
        · exact Or.inr h
    · rw [if_neg hm]
      constructor
      · rintro (h | h)
        · exact Or.inl (List.mem_cons_of_mem _ h)
        · rcases List.mem_append.mp h with h | h
          · exact Or.inr h
          · obtain rfl := List.mem_singleton.mp h
            exact Or.inl (List.mem_cons_self _ _)
      · rintro (h | h)
        · rcases List.mem_cons.mp h with rfl | h
          · exact Or.inr (List.mem_append.mpr (Or.inr (List.mem_singleton.mpr rfl)))
          · exact Or.inl h
        · exact Or.inr (List.mem_append.mpr (Or.inl h))

theorem buildFields_keys_nodup (f : String → Bool) (isos : List String)
    (init : List (String × Bool)) (h : (mapKeys init).Nodup) :
    (mapKeys (isos.foldl (fun fields i => mapSet fields i (f i)) init)).Nodup := by
  induction isos generalizing init with
  | nil => exact h
  | cons i rest ih =>
    rw [List.foldl_cons]
    refine ih _ ?_
    rw [mapKeys_mapSet]
    by_cases hm : i ∈ mapKeys init
    · rwa [if_pos hm]
    · rw [if_neg hm]
      simp only [List.nodup_append, List.nodup_cons, List.nodup_nil, and_true, true_and]
      exact ⟨h, by simpa using hm⟩

theorem buildFields_length (f : String → Bool) (isos : List String) :
    (isos.foldl (fun fields i => mapSet fields i (f i)) []).length = isos.dedup.length := by
  have hkeys : (isos.foldl (fun fields i => mapSet fields i (f i)) []).length =
      (mapKeys (isos.foldl (fun fields i => mapSet fields i (f i)) [])).length := by
    simp [mapKeys]
  rw [hkeys]
  have hnd : (mapKeys (isos.foldl (fun fields i => mapSet fields i (f i)) [])).Nodup :=
    buildFields_keys_nodup f isos [] (by simp [mapKeys])
  have hfin : (mapKeys (isos.foldl (fun fields i => mapSet fields i (f i)) [])).toFinset =
      isos.toFinset := by
    ext k
    simp only [List.mem_toFinset]
    rw [buildFields_mem_keys]
    simp [mapKeys]
  calc (mapKeys (isos.foldl (fun fields i => mapSet fields i (f i)) [])).length
      = (mapKeys (isos.foldl (fun fields i => mapSet fields i (f i)) [])).toFinset.card :=
        (List.toFinset_card_of_nodup hnd).symm
    _ = isos.toFinset.card := by rw [hfin]
    _ = isos.dedup.length := List.card_toFinset isos

/-- C3 counterexample: with a duplicated resolved date (possible because a
custom override list is used verbatim) the record object collapses the two
equal ISO keys into one property, so one student and two resolved dates
yield one boolean field, not 1 x 2. -/
theorem save_payload_count_counterexample :
    (saveAttendance ⟨"c1", "Class 1"⟩ "Aug 2025" [] [⟨2025, 8, 5⟩, ⟨2025, 8, 5⟩] none
        [{ student_id := "s1", student_name := "Ann" }]
        (.ok ⟨true, 0, "Aug 2025"⟩)).networkCall.map
      (fun p => (p.data.map (fun r => r.dateFields.length)).sum) = some 1 ∧
    ([(⟨2025, 8, 5⟩ : CalDate), ⟨2025, 8, 5⟩].length *
      [{ student_id := "s1", student_name := "Ann" : Student }].length = 2) ∧ (1 : Nat) ≠ 2 := by
  refine ⟨?_, by decide, by decide⟩
  decide

theorem buildRecord_dateFields (grid : List (String × Bool)) (days : List CalDate)
    (s : Student) :
    (buildRecord grid days s).dateFields =
      (days.map CalDate.toIso).foldl
        (fun fields i => mapSet fields i (getAttendanceStatus grid s.student_id i)) [] :=
  (List.foldl_map CalDate.toIso
    (fun fields i => mapSet fields i (getAttendanceStatus grid s.student_id i)) days []).symm

/-- C3 amended: the outgoing payload has exactly one record per filtered
student, every resolved date is explicitly populated with a boolean in
every record, and the total number of boolean date fields is
|students| x |distinct resolved dates|; this equals
|students| x |resolved dates| whenever the resolved date list is
duplicate-free (which tiers 2 and 3 always produce). -/
theorem save_payload_shape (selectedClass : ClassInfo) (selectedMonth : String)
    (grid : List (String × Bool)) (days : List CalDate)
    (enrolledIds : Option (List String)) (students : List Student)
    (saveResult : Except String AttendanceResponse)
    (hcid : ¬ selectedClass.class_id = "")
    (hne : ¬ studentsForThisClass enrolledIds students = []) :
    ∃ payload,
      (saveAttendance selectedClass selectedMonth grid days enrolledIds students
        saveResult).networkCall = some payload ∧
      payload.data.map (fun r => r.student_id) =
        (studentsForThisClass enrolledIds students).map (fun s => s.student_id) ∧
      (∀ rec ∈ payload.data, ∀ d ∈ days,
        mapGet rec.dateFields d.toIso =
          some (getAttendanceStatus grid rec.student_id d.toIso)) ∧
      (payload.data.map (fun r => r.dateFields.length)).sum =
        (studentsForThisClass enrolledIds students).length *
          ((days.map CalDate.toIso).dedup).length ∧
      ((days.map CalDate.toIso).Nodup →
        (payload.data.map (fun r => r.dateFields.length)).sum =
          (studentsForThisClass enrolledIds students).length * days.length) := by
  have hlen : ¬ (studentsForThisClass enrolledIds students).length = 0 := by
    simpa [List.length_eq_zero] using hne
  have hcall : (saveAttendance selectedClass selectedMonth grid days enrolledIds students
      saveResult).networkCall =
        some { class_id := selectedClass.class_id, class_name := selectedClass.class_name,
               month := selectedMonth, lesson_dates := days.map CalDate.toIso,
               data := (studentsForThisClass enrolledIds students).map
                 (buildRecord grid days) } := by
    cases saveResult with
    | ok res => simp [saveAttendance, hcid, hlen]
    | error e => simp [saveAttendance, hcid, hlen]
  have hsum : (((studentsForThisClass enrolledIds students).map
      (buildRecord grid days)).map (fun r => r.dateFields.length)).sum =
        (studentsForThisClass enrolledIds students).length *
          ((days.map CalDate.toIso).dedup).length := by
    rw [List.map_map]
    have hconst : ((studentsForThisClass enrolledIds students).map
        ((fun r => r.dateFields.length) ∘ buildRecord grid days)) =
          (studentsForThisClass enrolledIds students).map
            (fun _ => ((days.map CalDate.toIso).dedup).length) := by
      apply List.map_congr_left
      intro s _
      show (buildRecord grid days s).dateFields.length = _
      rw [buildRecord_dateFields]
      exact buildFields_length _ _
    rw [hconst, List.map_const', List.sum_replicate, smul_eq_mul]
  refine ⟨_, hcall, ?_, ?_, hsum, ?_⟩
  · rw [List.map_map]
    rfl
  · intro rec hrec d hd
    rw [List.mem_map] at hrec
    obtain ⟨s, _, rfl⟩ := hrec
    show mapGet (buildRecord grid days s).dateFields d.toIso = _
    rw [buildRecord_dateFields, buildFields_mapGet]
    rw [if_pos (List.mem_map_of_mem _ hd)]
    rfl
  · intro hnd
    rw [hsum, List.dedup_eq_self.mpr hnd, List.length_map]

/-- Two concrete students for the save-payload witness. -/
def c3Students : List Student :=
  [{ student_id := "s1", student_name := "Ann" }, { student_id := "s2", student_name := "Bob" }]

/-- Two concrete distinct resolved days for the save-payload witness. -/
def c3Days : List CalDate := [⟨2025, 8, 5⟩, ⟨2025, 8, 12⟩]

/-- Witness for the amended C3: two students and two distinct resolved days
give exactly 2 x 2 boolean date fields. -/
theorem save_payload_shape_witness :
    (¬ (⟨"c1", "Class 1"⟩ : ClassInfo).class_id = "") ∧
    (¬ studentsForThisClass none c3Students = []) ∧
    (∃ payload,
      (saveAttendance ⟨"c1", "Class 1"⟩ "Aug 2025" [] c3Days none c3Students
        (.ok ⟨true, 4, "Aug 2025"⟩)).networkCall = some payload ∧
      payload.data.map (fun r => r.student_id) =
        (studentsForThisClass none c3Students).map (fun s => s.student_id) ∧
      (∀ rec ∈ payload.data, ∀ d ∈ c3Days,
        mapGet rec.dateFields d.toIso =
          some (getAttendanceStatus [] rec.student_id d.toIso)) ∧
      (payload.data.map (fun r => r.dateFields.length)).sum =
        (studentsForThisClass none c3Students).length *
          ((c3Days.map CalDate.toIso).dedup).length ∧
      ((c3Days.map CalDate.toIso).Nodup →
        (payload.data.map (fun r => r.dateFields.length)).sum =
          (studentsForThisClass none c3Students).length * c3Days.length)) :=
  ⟨by decide, by decide,
    save_payload_shape ⟨"c1", "Class 1"⟩ "Aug 2025" [] c3Days none c3Students
      (.ok ⟨true, 4, "Aug 2025"⟩) (by decide) (by decide)⟩

/-! ### Loading the students of a class -/

/-- A students-table row as selected by `loadStudentsForClass`. -/
structure StudentRow where
  id : String
  student_name : String
  parent_email : Option String := none
  payment_status : Option String := none
  invoice_amount : Option ℚ := none
  last_payment_date : Option String := none
  deriving DecidableEq, Repr

/-- The try-block of `loadStudentsForClass` (src/unnamed/part_000, lines
49-91) before its catch-all: a missing or empty authenticated user id and
each failed query throw; with no scheduled student the function returns the
empty list without running the student-details query; otherwise the student
rows are mapped into the Student shape. -/
def loadStudentsBody (auth : Option String) (sched : Except String (List ScheduleRow))
    (studs : Except String (List StudentRow)) : Except String (List Student) :=
  match auth with
  | none => .error "User not authenticated"
  | some tid =>
    if tid = "" then .error "User not authenticated"
    else
      match sched with
      | .error e => .error e
      | .ok schedules =>
        let studentIds := (schedules.map (fun r => r.student_id)).dedup
        if studentIds.length = 0 then .ok []
        else
          match studs with
          | .error e => .error e
          | .ok studentData =>
            .ok (studentData.map (fun s =>
              ({ student_id := s.id, student_name := s.student_name,
                 parent_email := s.parent_email, payment_status := s.payment_status,
                 invoice_amount := s.invoice_amount,
                 last_payment_date := s.last_payment_date } : Student)))

/-- `loadStudentsForClass` (src/unnamed/part_000, lines 49-91): the body
wrapped in the catch-all that logs the error and returns the empty list. -/
def loadStudentsForClass (auth : Option String) (sched : Except String (List ScheduleRow))
    (studs : Except String (List StudentRow)) : List Student :=
  match loadStudentsBody auth sched studs with
  | .ok l => l
  | .error _ => []

/-- Observable outcome of `handleClassSelection`. -/
structure SelectionOutcome where
  studentList : List Student
  step : String
  errorToastShown : Bool
  deriving DecidableEq, Repr

/-- The try/catch of `handleClassSelection` (src/unnamed/part_000, lines
27-47) around an arbitrary loader outcome: a resolved value is stored and
the step advances; only a rejected promise would raise the error toast. -/
def handleClassSelectionWith (loadResult : Except String (List Student)) : SelectionOutcome :=
  match loadResult with
  | .ok data => { studentList := data, step := "attendance", errorToastShown := false }
  | .error _ => { studentList := [], step := "select", errorToastShown := true }

/-- `handleClassSelection` composed with the actual loader, which always
resolves because its internal catch-all converts every failure into a
normal return value. -/
def handleClassSelection (auth : Option String) (sched : Except String (List ScheduleRow))
    (studs : Except String (List StudentRow)) : SelectionOutcome :=
  handleClassSelectionWith (.ok (loadStudentsForClass auth sched studs))

/-- C9: a failed authentication check, schedule query or student query is
caught inside the loader, which returns the empty list instead of
propagating; the caller therefore proceeds to the attendance step with zero
students and its error toast is never shown for a remote failure. -/
theorem load_failure_gives_empty_and_proceeds (auth : Option String)
    (sched : Except String (List ScheduleRow)) (studs : Except String (List StudentRow))
    (h : auth = none ∨ auth = some "" ∨ (∃ e, sched = .error e) ∨ (∃ e, studs = .error e)) :
    loadStudentsForClass auth sched studs = [] ∧
    handleClassSelection auth sched studs =
      { studentList := [], step := "attendance", errorToastShown := false } := by
  have hload : loadStudentsForClass auth sched studs = [] := by
    unfold loadStudentsForClass loadStudentsBody
    rcases h with rfl | rfl | ⟨e, rfl⟩ | ⟨e, rfl⟩
    · rfl
    · rfl
    · cases auth with
      | none => rfl
      | some tid =>
        by_cases htid : tid = "" <;> simp [htid]
    · cases auth with
      | none => rfl
      | some tid =>
        by_cases htid : tid = ""
        · simp [htid]
        · cases sched with
          | error e2 => simp [htid]
          | ok rows =>
            by_cases hids : ((rows.map (fun r => r.student_id)).dedup).length = 0 <;>
              simp [htid, hids]
  refine ⟨hload, ?_⟩
  unfold handleClassSelection handleClassSelectionWith
  rw [hload]

/-- Witness for C9: a failing schedule query. -/
theorem load_failure_gives_empty_and_proceeds_witness :
    ((some "t1" : Option String) = none ∨ (some "t1" : Option String) = some "" ∨
      (∃ e, (Except.error "boom" : Except String (List ScheduleRow)) = .error e) ∨
      (∃ e, (Except.ok [] : Except String (List StudentRow)) = .error e)) ∧
    (loadStudentsForClass (some "t1") (.error "boom") (.ok []) = [] ∧
      handleClassSelection (some "t1") (.error "boom") (.ok []) =
        { studentList := [], step := "attendance", errorToastShown := false }) :=
  ⟨Or.inr (Or.inr (Or.inl ⟨"boom", rfl⟩)),
    load_failure_gives_empty_and_proceeds (some "t1") (.error "boom") (.ok [])
      (Or.inr (Or.inr (Or.inl ⟨"boom", rfl⟩)))⟩

/-! ### Payment processing -/

/-- Invoice shape of the payment tracker (src/unnamed/part_000, lines
191-200). -/
structure Invoice where
  id : String
  invoice_number : String
  student_name : String
  total_amount : ℚ
  status : String
  due_date : String
  invoice_date : String
  student_id : String
  deriving DecidableEq, Repr

/-- The update sent to the students table by `processPayment`. -/
structure StudentUpdate where
  payment_status : String
  last_payment_date : String
  invoice_amount : ℚ
  deriving DecidableEq, Repr

/-- Observable outcome of one `processPayment` run: which writes were
issued with which values, and whether the error toast was raised. -/
structure PaymentOutcome where
  paymentInsert : Option (String × String × ℚ × String)
  invoiceStatusWrite : Option (String × String)
  studentWrite : Option (String × StudentUpdate)
  errorToastShown : Bool
  deriving DecidableEq, Repr

/-- `processPayment` (src/unnamed/part_000, lines 255-322) as a function of
the dialog state and the remote outcomes: `parsedAmount` is the result of
`parseFloat(paymentAmount)` with `none` standing for NaN; the three `Err`
flags are the payment insert, invoice update and student update failing
remotely; each write field holds the values the corresponding statement
sent (also when that statement itself then errored). -/
def processPayment (selectedInvoice : Option Invoice) (parsedAmount : Option ℚ)
    (paymentMethod : String) (today : String)
    (payErr invErr studErr : Bool) : PaymentOutcome :=
  match selectedInvoice with
  | none =>
    { paymentInsert := none, invoiceStatusWrite := none, studentWrite := none,
      errorToastShown := false }
  | some inv =>
    match parsedAmount with
    | none =>
      { paymentInsert := none, invoiceStatusWrite := none, studentWrite := none,
        errorToastShown := true }
    | some amount =>
      if amount ≤ 0 then
        { paymentInsert := none, invoiceStatusWrite := none, studentWrite := none,
          errorToastShown := true }
      else
        let insert := (inv.id, inv.student_id, amount, paymentMethod)
        if payErr then
          { paymentInsert := some insert, invoiceStatusWrite := none, studentWrite := none,
            errorToastShown := true }
        else
          let newStatus := if amount ≥ inv.total_amount then "paid" else "partial"
          if invErr then
            { paymentInsert := some insert, invoiceStatusWrite := some (inv.id, newStatus),
              studentWrite := none, errorToastShown := true }
          else
            let studentUpdate : StudentUpdate :=
              { payment_status := if newStatus = "paid" then "paid" else "pending",
                last_payment_date := today, invoice_amount := inv.total_amount }
            if studErr then
              { paymentInsert := some insert, invoiceStatusWrite := some (inv.id, newStatus),
                studentWrite := some (inv.student_id, studentUpdate), errorToastShown := true }
            else
              { paymentInsert := some insert, invoiceStatusWrite := some (inv.id, newStatus),
                studentWrite := some (inv.student_id, studentUpdate), errorToastShown := false }

/-- C10: with a selected invoice, a parsed amount strictly above zero and
the remote writes succeeding, the invoice status written is "paid" exactly
when the amount reaches the invoice total and "partial" otherwise, and the
student's payment_status is simultaneously "paid" when the invoice became
"paid" and "pending" otherwise; a NaN or non-positive amount aborts with an
error toast before any write, for any remote outcomes. -/
theorem process_payment_status_rules (inv : Invoice) (amount : ℚ)
    (paymentMethod today : String) (hpos : 0 < amount) :
    (processPayment (some inv) (some amount) paymentMethod today
        false false false).invoiceStatusWrite =
      some (inv.id, if inv.total_amount ≤ amount then "paid" else "partial") ∧
    (processPayment (some inv) (some amount) paymentMethod today
        false false false).studentWrite =
      some (inv.student_id,
        { payment_status := if inv.total_amount ≤ amount then "paid" else "pending",
          last_payment_date := today, invoice_amount := inv.total_amount }) ∧
    (processPayment (some inv) (some amount) paymentMethod today
        false false false).errorToastShown = false ∧
    (∀ payErr invErr studErr : Bool, ∀ amt : ℚ, amt ≤ 0 →
      processPayment (some inv) (some amt) paymentMethod today payErr invErr studErr =
        { paymentInsert := none, invoiceStatusWrite := none, studentWrite := none,
          errorToastShown := true }) ∧
    (∀ payErr invErr studErr : Bool,
      processPayment (some inv) none paymentMethod today payErr invErr studErr =
        { paymentInsert := none, invoiceStatusWrite := none, studentWrite := none,
          errorToastShown := true }) := by
  have hnle : ¬ amount ≤ 0 := not_le.mpr hpos
  refine ⟨?_, ?_, ?_, ?_, ?_⟩
  · by_cases hge : inv.total_amount ≤ amount <;>
      simp [processPayment, hnle, hge, ge_iff_le]
  · by_cases hge : inv.total_amount ≤ amount <;>
      simp [processPayment, hnle, hge, ge_iff_le]
  · simp [processPayment, hnle]
  · intro payErr invErr studErr amt hle
    simp [processPayment, hle]
  · intro payErr invErr studErr
    simp [processPayment]

/-- A concrete invoice for the payment witness. -/
def c10Invoice : Invoice :=
  { id := "i1", invoice_number := "INV-001", student_name := "Ann", total_amount := 100,
    status := "pending", due_date := "2025-09-01", invoice_date := "2025-08-01",
    student_id := "s1" }

/-- Witness for C10: a partial payment of 50 against a 100 invoice. -/
theorem process_payment_status_rules_witness :
    (0 : ℚ) < 50 ∧
    ((processPayment (some c10Invoice) (some 50) "cash" "2025-08-05"
        false false false).invoiceStatusWrite =
      some (c10Invoice.id, if c10Invoice.total_amount ≤ 50 then "paid" else "partial") ∧
    (processPayment (some c10Invoice) (some 50) "cash" "2025-08-05"
        false false false).studentWrite =
      some (c10Invoice.student_id,
        { payment_status := if c10Invoice.total_amount ≤ 50 then "paid" else "pending",
          last_payment_date := "2025-08-05", invoice_amount := c10Invoice.total_amount }) ∧
    (processPayment (some c10Invoice) (some 50) "cash" "2025-08-05"
        false false false).errorToastShown = false ∧
    (∀ payErr invErr studErr : Bool, ∀ amt : ℚ, amt ≤ 0 →
      processPayment (some c10Invoice) (some amt) "cash" "2025-08-05"
          payErr invErr studErr =
        { paymentInsert := none, invoiceStatusWrite := none, studentWrite := none,
          errorToastShown := true }) ∧
    (∀ payErr invErr studErr : Bool,
      processPayment (some c10Invoice) none "cash" "2025-08-05" payErr invErr studErr =
        { paymentInsert := none, invoiceStatusWrite := none, studentWrite := none,
          errorToastShown := true })) :=
  ⟨by norm_num,
    process_payment_status_rules c10Invoice 50 "cash" "2025-08-05" (by norm_num)⟩

end PrivateClassSystem
